import Mathlib

/-!
Shallow embedding of `src/worker.js`, a Cloudflare-Worker style HTTP(S)
forward proxy, together with theorems settling the specification claims.

JavaScript strings are modelled as lists of Unicode code points
(`Str := List Nat`); header collections (the Fetch API `Headers` object)
as association lists with case-insensitive names; the outbound `fetch`
is an external effect and is passed to `handleRequest` as an explicit
outcome parameter (`Except` of transport-failure message or response).
-/

namespace CFWorker

/-- Str is the model of a JavaScript string: its list of Unicode code points. -/
abbrev Str := List Nat

/-- S converts a Lean string literal into the code-point model. -/
def S (s : String) : Str := s.data.map Char.toNat

/-- ValidCP says a code point is a Unicode scalar value (no surrogates,
below 0x110000); JavaScript strings fed to `encodeURIComponent` must
consist of these or the call throws. -/
def ValidCP (c : Nat) : Prop := c < 55296 ∨ (57343 < c ∧ c < 1114112)

/-- ValidStr says every code point of the string is a Unicode scalar value. -/
def ValidStr (s : Str) : Prop := ∀ c ∈ s, ValidCP c

instance (c : Nat) : Decidable (ValidCP c) := by unfold ValidCP; infer_instance

instance (s : Str) : Decidable (ValidStr s) := by unfold ValidStr; infer_instance

/-- toLowerCP models `String.prototype.toLowerCase` on one code point
(ASCII range; the worker only lower-cases ASCII header names). -/
def toLowerCP (c : Nat) : Nat := if 65 ≤ c ∧ c ≤ 90 then c + 32 else c

/-- lowerS models `s.toLowerCase()` for header names. -/
def lowerS (s : Str) : Str := s.map toLowerCP

/-- strStarts models `s.startsWith(p)`. -/
def strStarts : Str → Str → Bool
  | _, [] => true
  | [], _ :: _ => false
  | c :: cs, p :: ps => c == p && strStarts cs ps

/-- strEnds models `s.endsWith(p)` (used for the `$`-anchored regexes). -/
def strEnds (s p : Str) : Bool := strStarts s.reverse p.reverse

/-- hasSub decides whether `p` occurs as a contiguous substring of `s`,
modelling `String.prototype.includes` and an unanchored regex literal. -/
def hasSub : Str → Str → Bool
  | s, p =>
    match s with
    | [] => strStarts [] p
    | _ :: cs => strStarts s p || hasSub cs p

/-- hasSubCI models a case-insensitive (`/i`) unanchored regex literal. -/
def hasSubCI (s p : Str) : Bool := hasSub (lowerS s) (lowerS p)

/-- strEndsCI models a case-insensitive `$`-anchored regex literal. -/
def strEndsCI (s p : Str) : Bool := strEnds (lowerS s) (lowerS p)

/-- HeaderMap models the Fetch API `Headers` object: an association list
of (name, value) pairs; all lookups and updates are case-insensitive. -/
abbrev HeaderMap := List (Str × Str)

/-- hget models `headers.get(name)` (up to the case-insensitive name match;
the model keeps stored names as given and compares lower-cased). -/
def hget (hs : HeaderMap) (n : Str) : Option Str :=
  match hs with
  | [] => none
  | (k, v) :: rest => if lowerS k = lowerS n then some v else hget rest n

/-- hhas models `headers.has(name)`. -/
def hhas (hs : HeaderMap) (n : Str) : Bool := (hget hs n).isSome

/-- hset models `headers.set(name, value)`: every entry with the same
case-insensitive name is removed and the new pair is recorded. -/
def hset (hs : HeaderMap) (n v : Str) : HeaderMap :=
  match hs with
  | [] => [(n, v)]
  | (k, w) :: rest => if lowerS k = lowerS n then hset rest n v else (k, w) :: hset rest n v

/-- hget_hset characterises a lookup after a `set`. -/
theorem hget_hset (hs : HeaderMap) (n v m : Str) :
    hget (hset hs n v) m = if lowerS m = lowerS n then some v else hget hs m := by
  induction hs with
  | nil =>
    by_cases h : lowerS m = lowerS n
    · simp [hset, hget, h]
    · have hnm : ¬ lowerS n = lowerS m := fun hh => h hh.symm
      simp [hset, hget, h, hnm]
  | cons p rest ih =>
    obtain ⟨k, w⟩ := p
    by_cases hk : lowerS k = lowerS n
    · simp only [hset, if_pos hk, ih]
      by_cases hm : lowerS m = lowerS n
      · simp [hm]
      · have hkm : ¬ lowerS k = lowerS m := fun hh => hm (hh.symm.trans hk)
        simp [hget, hm, hkm]
    · simp only [hset, if_neg hk, hget]
      by_cases hkm : lowerS k = lowerS m
      · have hmn : ¬ lowerS m = lowerS n := fun hh => hk (hkm.trans hh)
        simp [hkm, hmn]
      · simp [hkm, ih]

/-- hget_hset_eq is the matching-name case of `hget_hset`. -/
theorem hget_hset_eq (hs : HeaderMap) (n v m : Str) (h : lowerS m = lowerS n) :
    hget (hset hs n v) m = some v := by
  rw [hget_hset, if_pos h]

/-- hget_hset_ne is the non-matching-name case of `hget_hset`. -/
theorem hget_hset_ne (hs : HeaderMap) (n v m : Str) (h : ¬ lowerS m = lowerS n) :
    hget (hset hs n v) m = hget hs m := by
  rw [hget_hset, if_neg h]

/-! Percent-encoding: models of the ECMAScript `encodeURIComponent` and
`decodeURIComponent` built-ins used at `worker.js` lines 53, 155 and 476. -/

/-- isAlphaCP recognises an ASCII letter code point. -/
def isAlphaCP (c : Nat) : Bool := (65 ≤ c && c ≤ 90) || (97 ≤ c && c ≤ 122)

/-- isDigitCP recognises an ASCII digit code point. -/
def isDigitCP (c : Nat) : Bool := 48 ≤ c && c ≤ 57

/-- unreservedURI is the `uriUnescaped` set of `encodeURIComponent`:
letters, digits, and `- _ . ! ~ * ( )` together with the apostrophe
(code point 39); everything else is percent-escaped. -/
def unreservedURI (c : Nat) : Bool :=
  isAlphaCP c || isDigitCP c || [45, 95, 46, 33, 126, 42, 39, 40, 41].contains c

/-- hexDigitCP maps a value below 16 to its uppercase ASCII hex digit,
as `encodeURIComponent` emits uppercase escapes. -/
def hexDigitCP (d : Nat) : Nat := if d < 10 then 48 + d else 55 + d

/-- pctEncByte renders one byte as a three-character `%XY` escape. -/
def pctEncByte (b : Nat) : Str := [37, hexDigitCP (b / 16), hexDigitCP (b % 16)]

/-- utf8Bytes is the UTF-8 encoding of one Unicode scalar value. -/
def utf8Bytes (c : Nat) : List Nat :=
  if c < 128 then [c]
  else if c < 2048 then [192 + c / 64, 128 + c % 64]
  else if c < 65536 then [224 + c / 4096, 128 + (c / 64) % 64, 128 + c % 64]
  else [240 + c / 262144, 128 + (c / 4096) % 64, 128 + (c / 64) % 64, 128 + c % 64]

/-- encodeCP encodes a single code point as `encodeURIComponent` does:
unreserved code points pass through, everything else becomes the
percent-escapes of its UTF-8 bytes. -/
def encodeCP (c : Nat) : Str :=
  if unreservedURI c then [c] else (utf8Bytes c).flatMap pctEncByte

/-- encodeURIComponent models the ECMAScript built-in on scalar-value
strings (on which the built-in never throws). -/
def encodeURIComponent (s : Str) : Str := s.flatMap encodeCP

/-- hexVal is the numeric value of an ASCII hex-digit code point. -/
def hexVal (c : Nat) : Option Nat :=
  if 48 ≤ c ∧ c ≤ 57 then some (c - 48)
  else if 65 ≤ c ∧ c ≤ 70 then some (c - 55)
  else if 97 ≤ c ∧ c ≤ 102 then some (c - 87)
  else none

/-- readByte parses one `%XY` escape from the front of a string,
returning the byte value and the remaining input. -/
def readByte (s : Str) : Option (Nat × Str) :=
  match s with
  | p :: h1 :: h2 :: rest =>
    if p = 37 then
      match hexVal h1, hexVal h2 with
      | some a, some b => some (16 * a + b, rest)
      | _, _ => none
    else none
  | _ => none

/-- decodeEscape continues the ECMAScript `Decode` algorithm after the
leading byte `b0` of a percent-escape has been read: further continuation
bytes are read from `r1`, and the decoded scalar value is validated
strictly (overlong forms, surrogates, and values past 0x10FFFF fail). -/
def decodeEscape (b0 : Nat) (r1 : Str) : Option (Nat × Str) :=
  if b0 < 128 then some (b0, r1)
  else if b0 < 192 then none
  else if b0 < 224 then
    match readByte r1 with
    | none => none
    | some (b1, r2) =>
      if 128 ≤ b1 ∧ b1 < 192 then
        let cp := (b0 - 192) * 64 + (b1 - 128)
        if 128 ≤ cp then some (cp, r2) else none
      else none
  else if b0 < 240 then
    match readByte r1 with
    | none => none
    | some (b1, r2) =>
      match readByte r2 with
      | none => none
      | some (b2, r3) =>
        if (128 ≤ b1 ∧ b1 < 192) ∧ (128 ≤ b2 ∧ b2 < 192) then
          let cp := (b0 - 224) * 4096 + (b1 - 128) * 64 + (b2 - 128)
          if 2048 ≤ cp ∧ ¬ (55296 ≤ cp ∧ cp ≤ 57343) then some (cp, r3) else none
        else none
  else if b0 < 248 then
    match readByte r1 with
    | none => none
    | some (b1, r2) =>
      match readByte r2 with
      | none => none
      | some (b2, r3) =>
        match readByte r3 with
        | none => none
        | some (b3, r4) =>
          if (128 ≤ b1 ∧ b1 < 192) ∧ (128 ≤ b2 ∧ b2 < 192) ∧ (128 ≤ b3 ∧ b3 < 192) then
            let cp := (b0 - 240) * 262144 + (b1 - 128) * 4096 + (b2 - 128) * 64 + (b3 - 128)
            if 65536 ≤ cp ∧ cp < 1114112 then some (cp, r4) else none
          else none
  else none

/-- decodeOne consumes one decoded code point from the front of the input,
following the ECMAScript `Decode` algorithm of `decodeURIComponent` with
an empty preserve set: a literal character passes through, a `%` starts a
strict UTF-8 byte sequence handled by `decodeEscape`; `none` models the
thrown `URIError`. -/
def decodeOne (s : Str) : Option (Nat × Str) :=
  match s with
  | [] => none
  | c :: rest =>
    if c = 37 then
      match readByte s with
      | none => none
      | some (b0, r1) => decodeEscape b0 r1
    else some (c, rest)

/-- decodeLoop iterates `decodeOne` with explicit fuel (one unit per
produced code point; the input length always suffices). -/
def decodeLoop : Nat → Str → Option Str
  | _, [] => some []
  | 0, _ :: _ => none
  | fuel + 1, c :: cs =>
    match decodeOne (c :: cs) with
    | none => none
    | some (d, rest) => (decodeLoop fuel rest).map (fun t => d :: t)

/-- decodeURIComponent models the ECMAScript built-in; `none` models the
thrown `URIError` on malformed percent-escapes. -/
def decodeURIComponent (s : Str) : Option Str := decodeLoop s.length s

/-! Round-trip lemmas: decoding inverts encoding on scalar-value strings. -/

/-- hexVal_hexDigitCP: the hex digit emitted for a value below 16 reads
back as that value. -/
theorem hexVal_hexDigitCP (d : Nat) (h : d < 16) : hexVal (hexDigitCP d) = some d := by
  unfold hexVal hexDigitCP
  split_ifs <;> simp_all <;> omega

/-- readByte_pct: a `%XY` escape at the front of the input reads back as
its byte (cons form). -/
theorem readByte_pct (b : Nat) (hb : b < 256) (t : Str) :
    readByte (37 :: hexDigitCP (b / 16) :: hexDigitCP (b % 16) :: t) = some (b, t) := by
  have h1 : hexVal (hexDigitCP (b / 16)) = some (b / 16) := hexVal_hexDigitCP _ (by omega)
  have h2 : hexVal (hexDigitCP (b % 16)) = some (b % 16) := hexVal_hexDigitCP _ (by omega)
  have h3 : 16 * (b / 16) + b % 16 = b := by omega
  simp [readByte, h1, h2, h3]

/-- readByte_pctEncByte: same statement with the escape given as
`pctEncByte b ++ t`. -/
theorem readByte_pctEncByte (b : Nat) (hb : b < 256) (t : Str) :
    readByte (pctEncByte b ++ t) = some (b, t) := by
  simpa [pctEncByte] using readByte_pct b hb t

/-- decodeOne_pctEncByte: reading one code point from an escape-headed
input defers to `decodeEscape` on the byte. -/
theorem decodeOne_pctEncByte (b : Nat) (hb : b < 256) (t : Str) :
    decodeOne (pctEncByte b ++ t) = decodeEscape b t := by
  simp [pctEncByte, decodeOne, readByte_pct b hb]

/-- decodeOne_encodeCP: decoding inverts the single-code-point encoder. -/
theorem decodeOne_encodeCP (c : Nat) (hv : ValidCP c) (rest : Str) :
    decodeOne (encodeCP c ++ rest) = some (c, rest) := by
  by_cases hu : unreservedURI c
  · have hne : ¬ c = 37 := by
      intro h
      rw [h] at hu
      exact absurd hu (by decide)
    simp [encodeCP, hu, decodeOne, hne]
  · rcases Nat.lt_or_ge c 128 with h1 | h1
    · have hu8 : utf8Bytes c = [c] := by simp [utf8Bytes, h1]
      have : encodeCP c ++ rest = pctEncByte c ++ rest := by simp [encodeCP, hu, hu8]
      rw [this, decodeOne_pctEncByte c (by omega), decodeEscape, if_pos h1]
    · rcases Nat.lt_or_ge c 2048 with h2 | h2
      · have hu8 : utf8Bytes c = [192 + c / 64, 128 + c % 64] := by
          rw [utf8Bytes, if_neg (by omega), if_pos h2]
        have hexp : encodeCP c ++ rest =
            pctEncByte (192 + c / 64) ++ (pctEncByte (128 + c % 64) ++ rest) := by
          simp [encodeCP, hu, hu8]
        rw [hexp, decodeOne_pctEncByte _ (by omega), decodeEscape]
        rw [if_neg (by omega), if_neg (by omega), if_pos (by omega)]
        rw [readByte_pctEncByte _ (by omega)]
        simp only [if_pos (show 128 ≤ 128 + c % 64 ∧ 128 + c % 64 < 192 by omega)]
        have hcp : (192 + c / 64 - 192) * 64 + (128 + c % 64 - 128) = c := by omega
        rw [hcp, if_pos (by omega)]
      · rcases Nat.lt_or_ge c 65536 with h3 | h3
        · have hu8 : utf8Bytes c = [224 + c / 4096, 128 + (c / 64) % 64, 128 + c % 64] := by
            rw [utf8Bytes, if_neg (by omega), if_neg (by omega), if_pos h3]
          have hexp : encodeCP c ++ rest =
              pctEncByte (224 + c / 4096) ++
                (pctEncByte (128 + (c / 64) % 64) ++ (pctEncByte (128 + c % 64) ++ rest)) := by
            simp [encodeCP, hu, hu8]
          have hsur : ¬ (55296 ≤ c ∧ c ≤ 57343) := by
            rcases hv with h | h
            · omega
            · omega
          rw [hexp, decodeOne_pctEncByte _ (by omega), decodeEscape]
          rw [if_neg (by omega), if_neg (by omega), if_neg (by omega), if_pos (by omega)]
          rw [readByte_pctEncByte _ (by omega)]
          simp only []
          rw [readByte_pctEncByte _ (by omega)]
          simp only [if_pos (show (128 ≤ 128 + (c / 64) % 64 ∧ 128 + (c / 64) % 64 < 192) ∧
            (128 ≤ 128 + c % 64 ∧ 128 + c % 64 < 192) by omega)]
          have hcp : (224 + c / 4096 - 224) * 4096 + (128 + (c / 64) % 64 - 128) * 64 +
              (128 + c % 64 - 128) = c := by omega
          rw [hcp, if_pos (by omega)]
        · have hv4 : c < 1114112 := by
            rcases hv with h | h
            · omega
            · omega
          have hu8 : utf8Bytes c =
              [240 + c / 262144, 128 + (c / 4096) % 64, 128 + (c / 64) % 64, 128 + c % 64] := by
            rw [utf8Bytes, if_neg (by omega), if_neg (by omega), if_neg (by omega)]
          have hexp : encodeCP c ++ rest =
              pctEncByte (240 + c / 262144) ++
                (pctEncByte (128 + (c / 4096) % 64) ++
                  (pctEncByte (128 + (c / 64) % 64) ++ (pctEncByte (128 + c % 64) ++ rest))) := by
            simp [encodeCP, hu, hu8]
          rw [hexp, decodeOne_pctEncByte _ (by omega), decodeEscape]
          rw [if_neg (by omega), if_neg (by omega), if_neg (by omega), if_neg (by omega),
            if_pos (by omega)]
          rw [readByte_pctEncByte _ (by omega)]
          simp only []
          rw [readByte_pctEncByte _ (by omega)]
          simp only []
          rw [readByte_pctEncByte _ (by omega)]
          simp only [if_pos (show (128 ≤ 128 + (c / 4096) % 64 ∧ 128 + (c / 4096) % 64 < 192) ∧
            (128 ≤ 128 + (c / 64) % 64 ∧ 128 + (c / 64) % 64 < 192) ∧
            (128 ≤ 128 + c % 64 ∧ 128 + c % 64 < 192) by omega)]
          have hcp : (240 + c / 262144 - 240) * 262144 + (128 + (c / 4096) % 64 - 128) * 4096 +
              (128 + (c / 64) % 64 - 128) * 64 + (128 + c % 64 - 128) = c := by omega
          rw [hcp, if_pos (by omega)]

/-- encodeCP_length_pos: the encoding of one code point is never empty. -/
theorem encodeCP_length_pos (c : Nat) : 0 < (encodeCP c).length := by
  unfold encodeCP
  split
  · simp
  · unfold utf8Bytes
    split_ifs <;> simp [pctEncByte]

/-- decodeLoop_step: one step of the fueled loop on a non-empty input. -/
theorem decodeLoop_step (f : Nat) (s : Str) (h : s ≠ []) :
    decodeLoop (f + 1) s =
      match decodeOne s with
      | none => none
      | some (d, rest) => (decodeLoop f rest).map (fun t => d :: t) := by
  cases s with
  | nil => exact absurd rfl h
  | cons c cs => rfl

/-- decodeLoop_encode: with enough fuel, the loop inverts the encoder. -/
theorem decodeLoop_encode (l : Str) : ∀ fuel : Nat, ValidStr l →
    (encodeURIComponent l).length ≤ fuel → decodeLoop fuel (encodeURIComponent l) = some l := by
  induction l with
  | nil => intro fuel _ _; cases fuel <;> rfl
  | cons c ls ih =>
    intro fuel hv hlen
    have henc : encodeURIComponent (c :: ls) = encodeCP c ++ encodeURIComponent ls := by
      simp [encodeURIComponent]
    have hpos : 0 < (encodeCP c).length := encodeCP_length_pos c
    have hne : encodeCP c ++ encodeURIComponent ls ≠ [] := by
      apply List.length_pos.mp
      rw [List.length_append]
      omega
    rw [henc] at hlen ⊢
    rw [List.length_append] at hlen
    cases fuel with
    | zero =>
      exfalso
      omega
    | succ f =>
      rw [decodeLoop_step f _ hne, decodeOne_encodeCP c (hv c (by simp))]
      have hrec : decodeLoop f (encodeURIComponent ls) = some ls :=
        ih f (fun x hx => hv x (by simp [hx])) (by omega)
      simp [hrec]

/-- decode_encode_roundtrip: `decodeURIComponent` inverts
`encodeURIComponent` on every scalar-value string. -/
theorem decode_encode_roundtrip (l : Str) (hv : ValidStr l) :
    decodeURIComponent (encodeURIComponent l) = some l :=
  decodeLoop_encode l (encodeURIComponent l).length hv le_rfl

/-! Data model: requests, responses, and the fetch effect. -/

/-- Body models a Response body: a pass-through body stream (identified
by an abstract id), a synthesized plain-text body, or the configuration
page markup. The landing-page HTML itself is out of the proxy's logic
(the page only needs the hostname string to render), so it is kept
abstract as `Body.html hostname`. -/
inductive Body where
  | stream (id : Nat)
  | text (s : Str)
  | html (hostname : Str)
  deriving DecidableEq

/-- JSRequest models the inbound Fetch API `Request` together with the
fields of `new URL(request.url)` that the worker reads: `url.pathname`
(starts with a slash), `url.host` (with port, used for the rewritten
`Location`), and `url.hostname` (used for the configuration page).
Header names are iterated as the `Headers` object yields them. -/
structure JSRequest where
  method : Str
  pathname : Str
  host : Str
  hostname : Str
  headers : HeaderMap
  body : Option Nat
  deriving DecidableEq

/-- JSResponse models a Fetch API `Response`: status, status text,
headers and body. -/
structure JSResponse where
  status : Nat
  statusText : Str
  headers : HeaderMap
  body : Option Body
  deriving DecidableEq

/-- Outcome is the result of `handleRequest` as seen by the runtime:
either a settled `Response`, or an uncaught exception (the returned
promise rejects), carrying the error text. -/
inductive Outcome where
  | ok (r : JSResponse)
  | fault (msg : Str)
  deriving DecidableEq

/-- Outcome.response? projects the settled response out of an outcome;
an uncaught fault has none. -/
def Outcome.response? : Outcome → Option JSResponse
  | Outcome.ok r => some r
  | Outcome.fault _ => none

/-- FetchOutcome is the externally-determined result of the outbound
`fetch(proxyRequest)` call: a response (any HTTP status counts as
success) or a transport-level failure carrying `error.message`. -/
abbrev FetchOutcome := Except Str JSResponse

/-! Global configuration tables of `worker.js` (lines 8-40). -/

/-- DEFAULT_HEADERS is the default outbound header table (worker.js 8-13). -/
def DEFAULT_HEADERS : HeaderMap :=
  [ (S "User-Agent", S "Mozilla/5.0 (iPhone; CPU iPhone OS 17_5 like Mac OS X) AppleWebKit/605.1.15 (KHTML, like Gecko) Version/17.5 Mobile/15E148 Safari/604.1"),
    (S "Accept", S "text/html,application/xhtml+xml,application/xml;q=0.9,*/*;q=0.8"),
    (S "Accept-Language", S "zh-CN,zh;q=0.9,en;q=0.8"),
    (S "Accept-Encoding", S "gzip, deflate, br") ]

/-- STREAMING_URL_PATTERNS models the regex array of worker.js 19-31; each
entry is the match function of one pattern. `rtmp[s]?:\/\/` matches
`rtmp://` or `rtmps://` anywhere; the `\.xxx$` patterns anchor at the
end; the word patterns match anywhere, all case-insensitively. -/
def STREAMING_URL_PATTERNS : List (Str → Bool) :=
  [ fun u => hasSubCI u (S "rtmp://") || hasSubCI u (S "rtmps://"),
    fun u => strEndsCI u (S ".flv"),
    fun u => strEndsCI u (S ".m3u8"),
    fun u => strEndsCI u (S ".ts"),
    fun u => strEndsCI u (S ".mp4"),
    fun u => strEndsCI u (S ".webm"),
    fun u => hasSubCI u (S "hls"),
    fun u => hasSubCI u (S "dash"),
    fun u => hasSubCI u (S "stream"),
    fun u => hasSubCI u (S "live"),
    fun u => hasSubCI u (S "broadcast") ]

/-- EXCLUDED_HEADERS is the exclusion table of worker.js 36-40; every
entry is used as a lowercase-name **prefix** test. -/
def EXCLUDED_HEADERS : List Str := [S "cf-", S "x-forwarded-", S "host"]

/-! Worker core logic (worker.js 48-233). -/

/-- isStreamingUrl models worker.js 97-99: the URL is streaming when any
pattern matches. -/
def isStreamingUrl (url : Str) : Bool := STREAMING_URL_PATTERNS.any (fun p => p url)

/-- isStreamingMethod models worker.js 106-111: content-type sniffing on
the inbound request (case-sensitive `includes`, as in the source). -/
def isStreamingMethod (request : JSRequest) : Bool :=
  let contentType := (hget request.headers (S "content-type")).getD []
  hasSub contentType (S "video/") ||
    hasSub contentType (S "application/x-rtmp") ||
    hasSub contentType (S "application/vnd.apple.mpegurl")

/-- isExcludedName is the per-header filter of worker.js 126: true when
the lower-cased name starts with some entry of `EXCLUDED_HEADERS`. -/
def isExcludedName (lowerKey : Str) : Bool :=
  EXCLUDED_HEADERS.any (fun e => strStarts lowerKey e)

/-- copyClientHeaders models the `for (const [key, value] of
request.headers.entries())` loop of worker.js 124-129, threading the
mutable `proxyHeaders` object as an accumulator. -/
def copyClientHeaders : HeaderMap → HeaderMap → HeaderMap
  | acc, [] => acc
  | acc, (key, value) :: rest =>
    if isExcludedName (lowerS key) then copyClientHeaders acc rest
    else copyClientHeaders (hset acc key value) rest

/-- buildProxyHeaders models worker.js 119-139: defaults, then the
filtered client overlay, then the streaming-specific forcings. -/
def buildProxyHeaders (request : JSRequest) (isStreaming : Bool) : HeaderMap :=
  let proxyHeaders := DEFAULT_HEADERS
  let proxyHeaders := copyClientHeaders proxyHeaders request.headers
  if isStreaming then
    hset (hset (hset proxyHeaders
      (S "Cache-Control") (S "no-cache, no-store, must-revalidate"))
      (S "Pragma") (S "no-cache"))
      (S "Connection") (S "keep-alive")
  else proxyHeaders

/-! URL parsing and resolution. The worker delegates these to the
platform's WHATWG `URL` and `Request` constructors; the model below
covers the fragment of their behaviour the worker exercises (scheme
detection, authority/path splitting, and resolution of absolute,
host-relative and path-relative `Location` values). -/

/-- isSchemeChar recognises the characters allowed after the first
letter of a URL scheme: letters, digits, `+`, `-`, `.`. -/
def isSchemeChar (c : Nat) : Bool :=
  isAlphaCP c || isDigitCP c || c == 43 || c == 45 || c == 46

/-- parseSchemeAux scans scheme characters up to a `:` (58), returning
the scheme body and the remainder after the colon. -/
def parseSchemeAux : Str → Option (Str × Str)
  | [] => none
  | c :: rest =>
    if c = 58 then some ([], rest)
    else if isSchemeChar c then (parseSchemeAux rest).map (fun p => (c :: p.1, p.2))
    else none

/-- parseScheme models WHATWG scheme parsing: a leading ASCII letter,
scheme characters, then `:`; yields the scheme and the part after it. -/
def parseScheme (s : Str) : Option (Str × Str) :=
  match s with
  | [] => none
  | c :: rest =>
    if isAlphaCP c then (parseSchemeAux rest).map (fun p => (c :: p.1, p.2)) else none

/-- isValidRequestURL models success of `new Request(targetUrl, ...)` in a
Workers runtime, where there is no base URL: the string must carry a
scheme, otherwise the constructor throws a `TypeError`. -/
def isValidRequestURL (s : Str) : Bool := (parseScheme s).isSome

/-- spanNoSlash splits a string at the first `/` (47), returning the part
before it and the remainder (beginning with the slash, if any). -/
def spanNoSlash : Str → Str × Str
  | [] => ([], [])
  | c :: rest =>
    if c = 47 then ([], c :: rest)
    else
      let p := spanNoSlash rest
      (c :: p.1, p.2)

/-- dirName keeps a path up to and including its last `/`; a path with no
slash degrades to the root `/`. -/
def dirName (p : Str) : Str :=
  let r := p.reverse.dropWhile (fun c => !(c == 47))
  if r.isEmpty then S "/" else r.reverse

/-- resolveURL models `new URL(location, targetUrl).toString()` on the
fragment of WHATWG resolution the worker exercises: an absolute
`location` wins; `//`-prefixed keeps the base scheme; `/`-prefixed keeps
scheme and host; anything else is resolved against the directory of the
base path. Normalisation (case folding, dot segments, default ports) is
not modelled. -/
def resolveURL (location base : Str) : Str :=
  if (parseScheme location).isSome then location
  else
    match parseScheme base with
    | none => location
    | some (scheme, rest) =>
      let rest2 := if strStarts rest (S "//") then rest.drop 2 else rest
      let hp := spanNoSlash rest2
      if strStarts location (S "//") then scheme ++ S ":" ++ location
      else if strStarts location (S "/") then scheme ++ S "://" ++ hp.1 ++ location
      else scheme ++ S "://" ++ hp.1 ++ dirName hp.2 ++ location

/-- mkProxiedLocation is the template literal of worker.js 155:
`https://<host>/<encodeURIComponent(redirect target)>`. -/
def mkProxiedLocation (host url : Str) : Str :=
  (S "https://" ++ host ++ S "/") ++ encodeURIComponent url

/-- addCorsHeaders models worker.js 220-233. -/
def addCorsHeaders (response : JSResponse) (isStreaming : Bool) : JSResponse :=
  let headers := hset response.headers (S "Access-Control-Allow-Origin") (S "*")
  let headers := hset headers (S "Access-Control-Allow-Methods") (S "GET, POST, PUT, DELETE, OPTIONS, HEAD")
  let headers := hset headers (S "Access-Control-Allow-Headers") (S "*")
  let headers := hset headers (S "Access-Control-Expose-Headers") (S "*")
  let headers :=
    if isStreaming then
      hset (hset headers (S "Access-Control-Allow-Credentials") (S "true"))
        (S "Access-Control-Max-Age") (S "86400")
    else headers
  { response with headers := headers }

/-- handleStreamingResponse models worker.js 187-212. -/
def handleStreamingResponse (response : JSResponse) : JSResponse :=
  let responseHeaders := response.headers
  let responseHeaders := hset responseHeaders (S "Cache-Control") (S "no-cache, no-store, must-revalidate")
  let responseHeaders := hset responseHeaders (S "Pragma") (S "no-cache")
  let responseHeaders := hset responseHeaders (S "Expires") (S "0")
  let responseHeaders := hset responseHeaders (S "Connection") (S "keep-alive")
  let responseHeaders :=
    if hhas response.headers (S "accept-ranges") then
      hset responseHeaders (S "Accept-Ranges") ((hget response.headers (S "accept-ranges")).getD [])
    else hset responseHeaders (S "Accept-Ranges") (S "bytes")
  let streamResponse : JSResponse :=
    { status := response.status, statusText := response.statusText,
      headers := responseHeaders, body := response.body }
  addCorsHeaders streamResponse true

/-- redirectCodes is the status list of worker.js 151. -/
def redirectCodes : List Nat := [301, 302, 303, 307, 308]

/-- handleNonRedirect is the tail of `handleResponse` (worker.js 167-179)
reached when the redirect branch does not fire. -/
def handleNonRedirect (response : JSResponse) (isStreaming : Bool) : JSResponse :=
  if isStreaming then handleStreamingResponse response
  else
    let modifiedResponse : JSResponse :=
      { status := response.status, statusText := response.statusText,
        headers := response.headers, body := response.body }
    addCorsHeaders modifiedResponse isStreaming

/-- handleResponse models worker.js 149-180. -/
def handleResponse (response : JSResponse) (originalUrlHost targetUrl : Str)
    (isStreaming : Bool) : JSResponse :=
  if redirectCodes.contains response.status then
    match hget response.headers (S "location") with
    | some location =>
      let redirectUrl := resolveURL location targetUrl
      let modifiedLocation := mkProxiedLocation originalUrlHost redirectUrl
      let redirectResponse : JSResponse :=
        { status := response.status, statusText := response.statusText,
          headers := response.headers, body := response.body }
      let redirectResponse :=
        { redirectResponse with
          headers := hset redirectResponse.headers (S "Location") modifiedLocation }
      addCorsHeaders redirectResponse isStreaming
    | none => handleNonRedirect response isStreaming
  else handleNonRedirect response isStreaming

/-- hget_addCorsHeaders_acao: CORS decoration always installs the
wildcard allow-origin header. -/
theorem hget_addCorsHeaders_acao (r : JSResponse) (s : Bool) :
    hget (addCorsHeaders r s).headers (S "Access-Control-Allow-Origin") = some (S "*") := by
  cases s <;> simp [addCorsHeaders, hget_hset] <;> decide

/-- hget_streaming_cc: streaming shaping forces the no-cache directive. -/
theorem hget_streaming_cc (r : JSResponse) :
    hget (handleStreamingResponse r).headers (S "Cache-Control") =
      some (S "no-cache, no-store, must-revalidate") := by
  by_cases h : hhas r.headers (S "accept-ranges")
  · simp [handleStreamingResponse, addCorsHeaders, hget_hset, h]
    rw [if_neg (show ¬ lowerS (S "Cache-Control") = lowerS (S "Accept-Ranges") by decide)]
    decide
  · simp [handleStreamingResponse, addCorsHeaders, hget_hset, h]
    decide

/-- hget_streaming_conn: streaming shaping forces keep-alive. -/
theorem hget_streaming_conn (r : JSResponse) :
    hget (handleStreamingResponse r).headers (S "Connection") = some (S "keep-alive") := by
  by_cases h : hhas r.headers (S "accept-ranges")
  · simp [handleStreamingResponse, addCorsHeaders, hget_hset, h]
    rw [if_neg (show ¬ lowerS (S "Connection") = lowerS (S "Accept-Ranges") by decide)]
    decide
  · simp [handleStreamingResponse, addCorsHeaders, hget_hset, h]
    decide

/-- addCorsHeaders_status: CORS decoration never changes the status. -/
theorem addCorsHeaders_status (r : JSResponse) (s : Bool) :
    (addCorsHeaders r s).status = r.status := rfl

/-- addCorsHeaders_body: CORS decoration never changes the body. -/
theorem addCorsHeaders_body (r : JSResponse) (s : Bool) :
    (addCorsHeaders r s).body = r.body := rfl

/-- handleNonRedirect_status: the non-redirect path preserves the status. -/
theorem handleNonRedirect_status (r : JSResponse) (s : Bool) :
    (handleNonRedirect r s).status = r.status := by
  cases s <;> rfl

/-- handleNonRedirect_body: the non-redirect path passes the body through. -/
theorem handleNonRedirect_body (r : JSResponse) (s : Bool) :
    (handleNonRedirect r s).body = r.body := by
  cases s <;> rfl

/-- copyClientHeaders_no_match: the copy loop leaves a name unread by any
source entry untouched in the accumulator. -/
theorem copyClientHeaders_no_match (l : HeaderMap) (name : Str) :
    ∀ acc : HeaderMap, (∀ p ∈ l, ¬ lowerS p.1 = lowerS name) →
      hget (copyClientHeaders acc l) name = hget acc name := by
  induction l with
  | nil => intro acc _; rfl
  | cons p rest ih =>
    intro acc hno
    obtain ⟨k, v⟩ := p
    have hk : ¬ lowerS k = lowerS name := hno (k, v) (by simp)
    cases he : isExcludedName (lowerS k)
    · simp only [copyClientHeaders, he, Bool.false_eq_true, if_false]
      rw [ih (hset acc k v) (fun q hq => hno q (by simp [hq]))]
      exact hget_hset_ne acc k v name (fun hh => hk hh.symm)
    · simp only [copyClientHeaders, he, if_true]
      exact ih acc (fun q hq => hno q (by simp [hq]))

/-- copyClientHeaders_hget characterises the copy loop completely on
header collections with pairwise-distinct (case-insensitive) names, as
the `Headers` iterator guarantees: a caller entry survives exactly when
its lowercase name passes the exclusion filter, and then overrides the
accumulator; everything else leaves the accumulator value. -/
theorem copyClientHeaders_hget (l : HeaderMap) (name : Str) :
    ∀ acc : HeaderMap, (l.map (fun p => lowerS p.1)).Nodup →
      hget (copyClientHeaders acc l) name =
        match hget l name with
        | some v => if isExcludedName (lowerS name) then hget acc name else some v
        | none => hget acc name := by
  induction l with
  | nil => intro acc _; rfl
  | cons p rest ih =>
    intro acc hnd
    obtain ⟨k, v⟩ := p
    rw [List.map_cons, List.nodup_cons] at hnd
    obtain ⟨hkmem, hndrest⟩ := hnd
    by_cases hk : lowerS k = lowerS name
    · have hno : ∀ q ∈ rest, ¬ lowerS q.1 = lowerS name := by
        intro q hq hcontra
        have hmem : lowerS q.1 ∈ rest.map (fun p => lowerS p.1) :=
          List.mem_map_of_mem _ hq
        rw [hcontra, ← hk] at hmem
        exact hkmem hmem
      have hgl : hget ((k, v) :: rest) name = some v := by simp [hget, hk]
      rw [hgl]
      cases he : isExcludedName (lowerS k)
      · have hen : isExcludedName (lowerS name) = false := by rw [← hk]; exact he
        simp only [copyClientHeaders, he, Bool.false_eq_true, if_false, hen]
        rw [copyClientHeaders_no_match rest name (hset acc k v) hno]
        exact hget_hset_eq acc k v name hk.symm
      · have hen : isExcludedName (lowerS name) = true := by rw [← hk]; exact he
        simp only [copyClientHeaders, he, if_true, hen]
        exact copyClientHeaders_no_match rest name acc hno
    · have hgl : hget ((k, v) :: rest) name = hget rest name := by simp [hget, hk]
      rw [hgl]
      cases he : isExcludedName (lowerS k)
      · simp only [copyClientHeaders, he, Bool.false_eq_true, if_false]
        rw [ih (hset acc k v) hndrest]
        have hacc : hget (hset acc k v) name = hget acc name :=
          hget_hset_ne acc k v name (fun hh => hk hh.symm)
        cases hr : hget rest name <;> simp [hr, hacc]
      · simp only [copyClientHeaders, he, if_true]
        exact ih acc hndrest

/-- buildProxyHeaders_false: without the streaming forcings, the outbound
set is exactly the filtered overlay on the defaults. -/
theorem buildProxyHeaders_false (req : JSRequest) :
    buildProxyHeaders req false = copyClientHeaders DEFAULT_HEADERS req.headers := rfl

/-- getConfigPage models worker.js 240-535: a 200 response whose body is
the landing-page markup rendered from the hostname, with an HTML
content type. -/
def getConfigPage (hostname : Str) : JSResponse :=
  { status := 200, statusText := [],
    headers := [(S "Content-Type", S "text/html; charset=utf-8")],
    body := some (Body.html hostname) }

/-- proxyError is the synthetic response built in the catch block of
worker.js 81-89. -/
def proxyError (msg : Str) : JSResponse :=
  { status := 502, statusText := [],
    headers := [(S "Content-Type", S "text/plain; charset=utf-8")],
    body := some (Body.text (S "代理错误: " ++ msg)) }

/-- invalidURLMessage models the `error.message` of the `TypeError`
thrown by `new Request` on a string with no scheme. -/
def invalidURLMessage : Str := S "Invalid URL"

/-- handleRequest models worker.js 48-90. The `decodeURIComponent` call
of line 53 sits outside the try block that starts at line 63, so a
malformed escape sequence surfaces as `Outcome.fault` (an uncaught
`URIError`), not as the synthetic 502. The outbound fetch outcome is
supplied by the environment as `fetchResult`. -/
def handleRequest (request : JSRequest) (fetchResult : FetchOutcome) : Outcome :=
  let targetUrlRaw := request.pathname.drop 1
  match decodeURIComponent targetUrlRaw with
  | none => Outcome.fault (S "URIError: URI malformed")
  | some targetUrl =>
    if targetUrl.isEmpty then Outcome.ok (getConfigPage request.hostname)
    else
      let isStreamingRequest := isStreamingUrl targetUrl || isStreamingMethod request
      let _proxyHeaders := buildProxyHeaders request isStreamingRequest
      if !isValidRequestURL targetUrl then Outcome.ok (proxyError invalidURLMessage)
      else
        match fetchResult with
        | Except.error e => Outcome.ok (proxyError e)
        | Except.ok response =>
          Outcome.ok (handleResponse response request.host targetUrl isStreamingRequest)

/-! Further helper lemmas used by the claim theorems. -/

/-- hget_handleNonRedirect_acao: both shapes of the non-redirect path end
in CORS decoration, so the wildcard allow-origin is always present. -/
theorem hget_handleNonRedirect_acao (r : JSResponse) (s : Bool) :
    hget (handleNonRedirect r s).headers (S "Access-Control-Allow-Origin") = some (S "*") := by
  cases s
  · exact hget_addCorsHeaders_acao _ false
  · exact hget_addCorsHeaders_acao _ true

/-- handleResponse_streaming_nonredirect: when the redirect branch does
not fire, a streaming-classified response is shaped by
`handleStreamingResponse`. -/
theorem handleResponse_streaming_nonredirect (resp : JSResponse) (host target : Str)
    (hnr : redirectCodes.contains resp.status = false ∨
      hget resp.headers (S "location") = none) :
    handleResponse resp host target true = handleStreamingResponse resp := by
  unfold handleResponse handleNonRedirect
  rcases hnr with h | h
  · rw [h]
    simp
  · cases hc : redirectCodes.contains resp.status
    · simp
    · rw [h]
      simp

/-! Concrete fixtures used by the closed claim theorems and witnesses. -/

/-- reqRoot is a caller hitting the bare service root. -/
def reqRoot : JSRequest :=
  { method := S "GET", pathname := S "/", host := S "proxy.test",
    hostname := S "proxy.test", headers := [], body := none }

/-- reqM3u8 is a caller requesting an HLS playlist through the proxy. -/
def reqM3u8 : JSRequest := { reqRoot with pathname := S "/https://x.test/a.m3u8" }

/-- reqC3 is a caller with a user-agent, a platform header and a
`host-`-type header. -/
def reqC3 : JSRequest :=
  { reqRoot with headers :=
      [(S "user-agent", S "UA1"), (S "cf-connecting-ip", S "1.2.3.4"), (S "host-id", S "7")] }

/-- reqC6 is a caller naming a well-formed absolute target. -/
def reqC6 : JSRequest := { reqRoot with pathname := S "/https://x.test/a" }

/-- reqC10 is a caller whose path decodes to the bare path `/foo`,
which is not an absolute URL. -/
def reqC10 : JSRequest := { reqRoot with pathname := S "/%2Ffoo" }

/-- resp302 is an origin redirect with a relative Location. -/
def resp302 : JSResponse :=
  { status := 302, statusText := S "Found",
    headers := [(S "Location", S "/next")], body := none }

/-- resp301 is an origin response with a nominal redirect status but no
Location header. -/
def resp301 : JSResponse :=
  { status := 301, statusText := S "Moved Permanently",
    headers := [(S "X-Origin", S "y")], body := some (Body.stream 3) }

/-- resp200 is a plain origin success. -/
def resp200 : JSResponse :=
  { status := 200, statusText := S "OK", headers := [], body := some (Body.stream 0) }

/-! Claim theorems. -/

/-- C1: the claim says a path with malformed percent-escapes yields the
synthetic 502 text/plain response and never an unhandled fault. In the
code, `decodeURIComponent` (line 53) runs outside the try block that
starts at line 63, so the `URIError` escapes `handleRequest` uncaught:
at the failing input `/%zz` the outcome is a fault, not a response. -/
theorem c1_malformed_escape_uncaught :
    handleRequest { reqRoot with pathname := S "/%zz" } (Except.error (S "unreachable")) =
      Outcome.fault (S "URIError: URI malformed") := by
  decide

/-- C2 counterexample: the claim says every returned response, the
configuration page included, carries `Access-Control-Allow-Origin: *`;
but the configuration page returned for the bare root carries no such
header. -/
theorem c2_counterexample :
    handleRequest reqRoot (Except.error (S "e")) = Outcome.ok (getConfigPage (S "proxy.test")) ∧
    hget (getConfigPage (S "proxy.test")).headers (S "Access-Control-Allow-Origin") = none := by
  decide

/-- C2 (amended): every response produced by `handleResponse` (proxied
responses of any status, redirects, streaming and non-streaming alike)
carries `Access-Control-Allow-Origin: *`; the configuration page and the
synthetic 502 error response do not carry it. -/
theorem c2_amended :
    (∀ (resp : JSResponse) (host target : Str) (s : Bool),
      hget (handleResponse resp host target s).headers (S "Access-Control-Allow-Origin") =
        some (S "*")) ∧
    (∀ hostname : Str,
      hget (getConfigPage hostname).headers (S "Access-Control-Allow-Origin") = none) ∧
    (∀ msg : Str,
      hget (proxyError msg).headers (S "Access-Control-Allow-Origin") = none) := by
  refine ⟨?_, ?_, ?_⟩
  · intro resp host target s
    unfold handleResponse
    by_cases hc : redirectCodes.contains resp.status = true
    · rw [if_pos hc]
      cases hl : hget resp.headers (S "location")
      · exact hget_handleNonRedirect_acao resp s
      · exact hget_addCorsHeaders_acao _ s
    · rw [if_neg hc]
      exact hget_handleNonRedirect_acao resp s
  · intro hostname
    show hget [(S "Content-Type", S "text/html; charset=utf-8")]
      (S "Access-Control-Allow-Origin") = none
    decide
  · intro msg
    show hget [(S "Content-Type", S "text/plain; charset=utf-8")]
      (S "Access-Control-Allow-Origin") = none
    decide

/-- C3 counterexample: the claim says a caller header merely starting
with `host`, such as `host-id`, is forwarded; the code excludes by
prefix, so the caller's `host-id` header is dropped from the outbound
set (the lookup falls back to the defaults, which have no such name). -/
theorem c3_counterexample :
    hget reqC3.headers (S "host-id") = some (S "7") ∧
    hget (buildProxyHeaders reqC3 false) (S "host-id") = none := by
  decide

/-- C3 (amended): the outbound header set contains exactly those caller
headers whose lowercase name does not start with `cf-`, `x-forwarded-`,
or `host` (a prefix test, so `host-id` is also excluded), each surviving
caller header overriding any same-named default; excluded or absent
names fall back to the defaults. Stated for caller header collections
with pairwise-distinct case-insensitive names, as the `Headers` iterator
guarantees, and without the streaming forcings. -/
theorem c3_amended (req : JSRequest) (name : Str)
    (hnd : (req.headers.map (fun p => lowerS p.1)).Nodup) :
    hget (buildProxyHeaders req false) name =
      match hget req.headers name with
      | some v =>
        if isExcludedName (lowerS name) then hget DEFAULT_HEADERS name else some v
      | none => hget DEFAULT_HEADERS name := by
  rw [buildProxyHeaders_false]
  exact copyClientHeaders_hget req.headers name DEFAULT_HEADERS hnd

/-- C3 witness: at the concrete request `reqC3`, the caller-supplied
user-agent survives and overrides the default. -/
theorem c3_amended_witness :
    hget (buildProxyHeaders reqC3 false) (S "user-agent") = some (S "UA1") := by
  rw [c3_amended reqC3 (S "user-agent") (by decide)]
  decide

/-- C4 counterexample: the claim says every response returned for a
streaming-classified target carries the no-cache directive and
keep-alive; but a redirect (302 with Location) from such a target is
handled by the redirect branch, which skips streaming shaping, so the
returned response carries neither header. -/
theorem c4_counterexample :
    isStreamingUrl (S "https://x.test/a.m3u8") = true ∧
    (handleRequest reqM3u8 (Except.ok resp302)).response?.map
      (fun r => (hget r.headers (S "Cache-Control"), hget r.headers (S "Connection"))) =
      some (none, none) := by
  decide

/-- C4 (amended): for a target URL matching a streaming pattern the
streaming verdict is true, and every response not taken by the redirect
branch (status not a redirect code, or no Location header) carries
`Cache-Control: no-cache, no-store, must-revalidate` and
`Connection: keep-alive`; redirect-branch responses and the synthetic
502 are not given these headers. -/
theorem c4_amended (target : Str) (resp : JSResponse) (host : Str) (m : Bool)
    (hs : isStreamingUrl target = true)
    (hnr : redirectCodes.contains resp.status = false ∨
      hget resp.headers (S "location") = none) :
    (isStreamingUrl target || m) = true ∧
    hget (handleResponse resp host target (isStreamingUrl target || m)).headers
      (S "Cache-Control") = some (S "no-cache, no-store, must-revalidate") ∧
    hget (handleResponse resp host target (isStreamingUrl target || m)).headers
      (S "Connection") = some (S "keep-alive") := by
  have hb : (isStreamingUrl target || m) = true := by rw [hs]; simp
  rw [hb, handleResponse_streaming_nonredirect resp host target hnr]
  exact ⟨rfl, hget_streaming_cc resp, hget_streaming_conn resp⟩

/-- C4 witness: concrete streaming target with a plain 200 origin
response. -/
theorem c4_amended_witness :
    (isStreamingUrl (S "https://x.test/a.m3u8") || false) = true ∧
    hget (handleResponse resp200 (S "proxy.test") (S "https://x.test/a.m3u8")
      (isStreamingUrl (S "https://x.test/a.m3u8") || false)).headers
      (S "Cache-Control") = some (S "no-cache, no-store, must-revalidate") ∧
    hget (handleResponse resp200 (S "proxy.test") (S "https://x.test/a.m3u8")
      (isStreamingUrl (S "https://x.test/a.m3u8") || false)).headers
      (S "Connection") = some (S "keep-alive") :=
  c4_amended (S "https://x.test/a.m3u8") resp200 (S "proxy.test") false
    (by decide) (Or.inl (by decide))

/-- C5: for a 302 with `Location: /next`, target `https://origin.test/a`
and service host `proxy.test`, the rewritten Location is
`https://proxy.test/` followed by the percent-encoding of
`https://origin.test/next`. -/
theorem c5_redirect_location :
    hget (handleResponse resp302 (S "proxy.test") (S "https://origin.test/a") false).headers
        (S "Location") =
      some (S "https://proxy.test/" ++ encodeURIComponent (S "https://origin.test/next")) ∧
    hget (handleResponse resp302 (S "proxy.test") (S "https://origin.test/a") false).headers
        (S "Location") =
      some (S "https://proxy.test/https%3A%2F%2Forigin.test%2Fnext") := by
  decide

/-- C6: a transport failure on the outbound fetch yields the synthetic
502 with a non-empty plain-text body and never an unhandled fault, for
every request whose path decodes to a non-empty valid target. -/
theorem c6_transport_failure (req : JSRequest) (msg target : Str)
    (hdec : decodeURIComponent (req.pathname.drop 1) = some target)
    (hne : target ≠ [])
    (hval : isValidRequestURL target = true) :
    handleRequest req (Except.error msg) = Outcome.ok (proxyError msg) ∧
    (proxyError msg).status = 502 ∧
    (proxyError msg).body = some (Body.text (S "代理错误: " ++ msg)) ∧
    S "代理错误: " ++ msg ≠ [] ∧
    hget (proxyError msg).headers (S "Content-Type") = some (S "text/plain; charset=utf-8") := by
  refine ⟨?_, rfl, rfl, ?_, ?_⟩
  · rw [List.drop_one] at hdec
    simp [handleRequest, hdec, hne, hval]
  · intro h
    have hlen := congrArg List.length h
    rw [List.length_append] at hlen
    have h6 : (S "代理错误: ").length = 6 := by decide
    rw [h6] at hlen
    simp at hlen
  · show hget [(S "Content-Type", S "text/plain; charset=utf-8")] (S "Content-Type") =
      some (S "text/plain; charset=utf-8")
    decide

/-- C6 witness: concrete unresolvable-host failure. -/
theorem c6_transport_failure_witness :
    handleRequest reqC6 (Except.error (S "getaddrinfo ENOTFOUND")) =
      Outcome.ok (proxyError (S "getaddrinfo ENOTFOUND")) :=
  (c6_transport_failure reqC6 (S "getaddrinfo ENOTFOUND") (S "https://x.test/a")
    (by decide) (by decide) (by decide)).1

/-- C7: a path that decodes to the empty string yields the configuration
page with status 200 and an HTML content type, whatever the method,
headers and fetch outcome. -/
theorem c7_config_page (req : JSRequest) (f : FetchOutcome)
    (hdec : decodeURIComponent (req.pathname.drop 1) = some []) :
    handleRequest req f = Outcome.ok (getConfigPage req.hostname) ∧
    (getConfigPage req.hostname).status = 200 ∧
    hget (getConfigPage req.hostname).headers (S "Content-Type") =
      some (S "text/html; charset=utf-8") := by
  refine ⟨?_, rfl, ?_⟩
  · rw [List.drop_one] at hdec
    simp [handleRequest, hdec]
  · show hget [(S "Content-Type", S "text/html; charset=utf-8")] (S "Content-Type") =
      some (S "text/html; charset=utf-8")
    decide

/-- C7 witness: the bare root path. -/
theorem c7_config_page_witness :
    handleRequest reqRoot (Except.error (S "e")) = Outcome.ok (getConfigPage reqRoot.hostname) :=
  (c7_config_page reqRoot (Except.error (S "e")) (by decide)).1

/-- C8: a redirect-status response with no Location header is handled by
the normal non-redirect path (streaming or non-streaming shaping plus
CORS decoration), with status and body passed through. -/
theorem c8_missing_location (resp : JSResponse) (host target : Str) (s : Bool)
    (hred : redirectCodes.contains resp.status = true)
    (hloc : hget resp.headers (S "location") = none) :
    handleResponse resp host target s = handleNonRedirect resp s ∧
    (handleResponse resp host target s).status = resp.status ∧
    (handleResponse resp host target s).body = resp.body := by
  have h1 : handleResponse resp host target s = handleNonRedirect resp s := by
    unfold handleResponse
    rw [if_pos hred, hloc]
  refine ⟨h1, ?_, ?_⟩
  · rw [h1]
    exact handleNonRedirect_status resp s
  · rw [h1]
    exact handleNonRedirect_body resp s

/-- C8 witness: a 301 with no Location header. -/
theorem c8_missing_location_witness :
    handleResponse resp301 (S "proxy.test") (S "https://x.test/a") false =
      handleNonRedirect resp301 false :=
  (c8_missing_location resp301 (S "proxy.test") (S "https://x.test/a") false
    (by decide) (by decide)).1

/-- C9: percent-decoding the path segment of a proxied URL generated by
the redirect rewriter (the part after `https://<service-host>/`) yields
exactly the original absolute target URL string. -/
theorem c9_roundtrip (host u : Str) (hv : ValidStr u) :
    decodeURIComponent
      ((mkProxiedLocation host u).drop (S "https://" ++ host ++ S "/").length) = some u := by
  unfold mkProxiedLocation
  rw [List.drop_left]
  exact decode_encode_roundtrip u hv

/-- C9 witness: a target containing multi-byte characters, a space and
reserved URL characters. -/
theorem c9_roundtrip_witness :
    decodeURIComponent
      ((mkProxiedLocation (S "proxy.test") (S "https://x.test/直播 hls?a=1&b=é")).drop
        (S "https://" ++ S "proxy.test" ++ S "/").length) =
      some (S "https://x.test/直播 hls?a=1&b=é") :=
  c9_roundtrip (S "proxy.test") (S "https://x.test/直播 hls?a=1&b=é") (by decide)

/-- C10: a path that decodes to a non-empty string that is not a valid
absolute URL makes the `Request` constructor throw inside the try block;
the caught error produces the synthetic 502 plain-text response — never
the configuration page and never an unhandled fault. -/
theorem c10_invalid_target (req : JSRequest) (f : FetchOutcome) (target : Str)
    (hdec : decodeURIComponent (req.pathname.drop 1) = some target)
    (hne : target ≠ [])
    (hval : isValidRequestURL target = false) :
    handleRequest req f = Outcome.ok (proxyError invalidURLMessage) ∧
    (proxyError invalidURLMessage).status = 502 ∧
    hget (proxyError invalidURLMessage).headers (S "Content-Type") =
      some (S "text/plain; charset=utf-8") ∧
    (proxyError invalidURLMessage).body =
      some (Body.text (S "代理错误: " ++ invalidURLMessage)) := by
  refine ⟨?_, rfl, ?_, rfl⟩
  · rw [List.drop_one] at hdec
    simp [handleRequest, hdec, hne, hval]
  · show hget [(S "Content-Type", S "text/plain; charset=utf-8")] (S "Content-Type") =
      some (S "text/plain; charset=utf-8")
    decide

/-- C10 witness: the path `/%2Ffoo`, decoding to the bare path `/foo`. -/
theorem c10_invalid_target_witness :
    handleRequest reqC10 (Except.error (S "x")) = Outcome.ok (proxyError invalidURLMessage) :=
  (c10_invalid_target reqC10 (Except.error (S "x")) (S "/foo")
    (by decide) (by decide) (by decide)).1

end CFWorker
